import Mathlib

/-!
Verification development for the orcapp recognition core
(src-tauri/src/services/{openai,anthropic,llm,image}.rs and
src-tauri/src/commands/recognition.rs).

Rust strings are modelled as `List Char`, raw bytes as `List Nat`
(values < 256), machine integers as `Int`/`Nat`.  Fallible Rust code
returns `Option`/`Except`.  The external collaborators (reqwest, the
image crate, the database) are modelled as explicit parameters or as
return-site relations; everything that the repository itself computes is
translated function-by-function from the source.
-/

set_option maxHeartbeats 1000000

/-! ## Basic string helpers (Rust `str::trim`, `str::trim_start`)

Rust trims Unicode `White_Space`; the inputs handled by this code base
only ever contain the ASCII whitespace recognised by `Char.isWhitespace`
(space, tab, CR, LF), so that predicate is used. -/

def rustTrimStart (s : List Char) : List Char :=
  s.dropWhile Char.isWhitespace

def rustTrimEnd (s : List Char) : List Char :=
  (s.reverse.dropWhile Char.isWhitespace).reverse

def rustTrim (s : List Char) : List Char :=
  rustTrimEnd (rustTrimStart s)

theorem rustTrimStart_length_le (s : List Char) : (rustTrimStart s).length ≤ s.length := by
  induction s with
  | nil => exact Nat.le_refl _
  | cons c cs ih =>
    simp only [rustTrimStart, List.dropWhile] at ih ⊢
    by_cases h : c.isWhitespace
    · simp only [h]
      exact Nat.le_succ_of_le ih
    · simp [h]

/-! ## Line extraction

`extractLines buf` models the Rust loop
`while let Some(idx) = buffer.find('\n') { let line = &buffer[..idx]; buffer = &buffer[idx+1..]; }`
(openai.rs:94-96, anthropic.rs:101-103): it returns the list of complete
(`'\n'`-terminated) lines in order, together with the trailing partial
line that stays in the carry-over buffer. -/

def extractLines : List Char → List (List Char) × List Char
  | [] => ([], [])
  | c :: cs =>
    if c = '\n' then
      ([] :: (extractLines cs).1, (extractLines cs).2)
    else
      match extractLines cs with
      | ([], rest) => ([], c :: rest)
      | (l :: ls, rest) => ((c :: l) :: ls, rest)

theorem extractLines_append (xs ys : List Char) :
    extractLines (xs ++ ys) =
      ((extractLines xs).1 ++ (extractLines ((extractLines xs).2 ++ ys)).1,
       (extractLines ((extractLines xs).2 ++ ys)).2) := by
  induction xs with
  | nil => simp [extractLines]
  | cons c cs ih =>
    rcases h : extractLines cs with ⟨ls, rest⟩
    by_cases hc : c = '\n'
    · subst hc
      simp [extractLines, h, ih]
    · rcases ls with _ | ⟨l, ls⟩
      · rcases h2 : extractLines (rest ++ ys) with ⟨ls2, rest2⟩
        simp only [h, List.nil_append] at ih
        rcases ls2 with _ | ⟨l2, ls2⟩ <;>
          simp [extractLines, h, hc, ih, h2]
      · simp [extractLines, h, hc, ih]

/-! ## The streaming accumulator

`Emitted` is the pair of observables of a streaming run: the
accumulated `full_content` string and the ordered list of delta-callback
invocations (`cb(...)` calls), most recent last. -/

structure Emitted where
  full_content : List Char
  deltas : List (List Char)
deriving DecidableEq, Repr

/-- The streaming state: the carry-over line buffer plus the observables. -/
structure StreamState where
  buffer : List Char
  emitted : Emitted
deriving DecidableEq, Repr

def initStream : StreamState := { buffer := [], emitted := ⟨[], []⟩ }

/-- Record one delta: append to the accumulator and invoke the callback
(openai.rs:107-110, anthropic.rs:112-115). `none` means the line produced
no delta. -/
def applyDelta (em : Emitted) : Option (List Char) → Emitted
  | some text => { full_content := em.full_content ++ text, deltas := em.deltas ++ [text] }
  | none => em

/-- Feed one decoded chunk: append it to the carry-over buffer, then
drain and handle every complete line (openai.rs:88-116,
anthropic.rs:96-123). `handleLine` is the per-line processing of the
respective adapter. -/
def feedChunk (handleLine : Emitted → List Char → Emitted)
    (st : StreamState) (chunk : List Char) : StreamState :=
  let r := extractLines (st.buffer ++ chunk)
  { buffer := r.2, emitted := r.1.foldl handleLine st.emitted }

/-- After the stream ends, a non-empty carry-over buffer is processed as
one final line (openai.rs:119-137, anthropic.rs:126-146). -/
def finishStream (handleLine : Emitted → List Char → Emitted)
    (st : StreamState) : Emitted :=
  if st.buffer = [] then st.emitted else handleLine st.emitted st.buffer

/-- A whole streaming run over a list of already-decoded chunks. -/
def runStream (handleLine : Emitted → List Char → Emitted)
    (chunks : List (List Char)) : Emitted :=
  finishStream handleLine (chunks.foldl (feedChunk handleLine) initStream)

theorem feedChunk_append (h : Emitted → List Char → Emitted)
    (st : StreamState) (a b : List Char) :
    feedChunk h (feedChunk h st a) b = feedChunk h st (a ++ b) := by
  simp only [feedChunk]
  rw [← List.append_assoc, extractLines_append (st.buffer ++ a) b]
  simp [List.foldl_append]

theorem foldl_feedChunk (h : Emitted → List Char → Emitted)
    (cs : List (List Char)) : ∀ (st : StreamState) (c : List Char),
    cs.foldl (feedChunk h) (feedChunk h st c) = feedChunk h st (c ++ cs.flatten) := by
  induction cs with
  | nil => intro st c; simp
  | cons d cs ih =>
    intro st c
    simp only [List.foldl_cons, List.flatten_cons]
    rw [feedChunk_append, ih, List.append_assoc]

/-- Chunk-boundary invariance of the reassembly machinery, for chunks
split at character boundaries: any chunking produces exactly the run of
the single concatenated chunk. -/
theorem runStream_flatten (h : Emitted → List Char → Emitted)
    (chunks : List (List Char)) :
    runStream h chunks = runStream h [chunks.flatten] := by
  cases chunks with
  | nil => rfl
  | cons c cs =>
    simp only [runStream, List.foldl_cons, List.foldl_nil, List.flatten_cons]
    rw [foldl_feedChunk]

/-! ## A model of the `serde_json` values and parser

Only the behaviour the adapters rely on is needed: `from_str`,
`Value` indexing with string keys and array positions (returning `Null`
on any mismatch), `as_str`, `as_i64` and `Value == &str` comparison.
Numbers keep their lexeme; no floating-point semantics is needed
anywhere in the claims. -/

inductive Json where
  | null
  | bool (b : Bool)
  | num (raw : List Char)
  | str (s : List Char)
  | arr (elems : List Json)
  | obj (fields : List (List Char × Json))

/-- Insert-or-overwrite, mirroring `serde_json::Map::insert` (and the
`Value` `IndexMut` used by `request_body[key] = value`). -/
def objInsert : List (List Char × Json) → List Char → Json → List (List Char × Json)
  | [], k, v => [(k, v)]
  | (k0, v0) :: fs, k, v =>
    if k0 = k then (k0, v) :: fs else (k0, v0) :: objInsert fs k v

def jsonWs (c : Char) : Bool :=
  c = ' ' || c = '\t' || c = '\n' || c = '\r'

def skipWs (s : List Char) : List Char :=
  s.dropWhile jsonWs

def hexVal (c : Char) : Option Nat :=
  if '0' ≤ c ∧ c ≤ '9' then some (c.toNat - 48)
  else if 'a' ≤ c ∧ c ≤ 'f' then some (c.toNat - 87)
  else if 'A' ≤ c ∧ c ≤ 'F' then some (c.toNat - 55)
  else none

def escVal (c : Char) : Option Char :=
  if c = '"' then some '"'
  else if c = '\\' then some '\\'
  else if c = '/' then some '/'
  else if c = 'b' then some (Char.ofNat 8)
  else if c = 'f' then some (Char.ofNat 12)
  else if c = 'n' then some '\n'
  else if c = 'r' then some '\r'
  else if c = 't' then some '\t'
  else none

/-- Body of a JSON string literal, after the opening quote: returns the
decoded characters and the input after the closing quote.  Surrogate
pairs in `\u` escapes are not modelled (nothing in this development uses
`\u` at all); raw control characters are rejected as serde does. -/
def parseStringBody : List Char → Option (List Char × List Char)
  | [] => none
  | '"' :: cs => some ([], cs)
  | '\\' :: 'u' :: h1 :: h2 :: h3 :: h4 :: cs => do
    let n1 ← hexVal h1
    let n2 ← hexVal h2
    let n3 ← hexVal h3
    let n4 ← hexVal h4
    let code := ((n1 * 16 + n2) * 16 + n3) * 16 + n4
    if Nat.isValidChar code then
      let r ← parseStringBody cs
      some (Char.ofNat code :: r.1, r.2)
    else none
  | '\\' :: e :: cs => do
    let ec ← escVal e
    let r ← parseStringBody cs
    some (ec :: r.1, r.2)
  | c :: cs =>
    if c.toNat < 32 then none
    else do
      let r ← parseStringBody cs
      some (c :: r.1, r.2)

def lexDigits (s : List Char) : List Char × List Char :=
  (s.takeWhile Char.isDigit, s.dropWhile Char.isDigit)

def lexFrac : List Char → Option (List Char × List Char)
  | '.' :: t =>
    let (ds, r) := lexDigits t
    if ds = [] then none else some ('.' :: ds, r)
  | s => some ([], s)

def lexExp : List Char → Option (List Char × List Char)
  | c :: t =>
    if c = 'e' ∨ c = 'E' then
      let (sgn, t2) : List Char × List Char :=
        match t with
        | '+' :: u => (['+'], u)
        | '-' :: u => (['-'], u)
        | _ => ([], t)
      let (ds, r) := lexDigits t2
      if ds = [] then none else some (c :: (sgn ++ ds), r)
    else some ([], c :: t)
  | [] => some ([], [])

/-- Lex one JSON number, returning its lexeme and the rest (leading
zeros rejected, as serde does). -/
def parseNumber (s : List Char) : Option (List Char × List Char) :=
  let (sgn, s1) : List Char × List Char :=
    match s with
    | '-' :: t => (['-'], t)
    | _ => ([], s)
  let (ip, s2) := lexDigits s1
  if ip = [] then none
  else if ip.length > 1 ∧ ip.headI = '0' then none
  else do
    let (fp, s3) ← lexFrac s2
    let (ep, s4) ← lexExp s3
    some (sgn ++ ip ++ fp ++ ep, s4)

def expectLit : List Char → List Char → Option (List Char)
  | [], s => some s
  | _ :: _, [] => none
  | c :: cs, d :: ds => if c = d then expectLit cs ds else none

mutual

def parseValue : Nat → List Char → Option (Json × List Char)
  | 0, _ => none
  | fuel + 1, s =>
    match skipWs s with
    | [] => none
    | c :: rest =>
      if c = 'n' then (expectLit "ull".data rest).map (fun r => (Json.null, r))
      else if c = 't' then (expectLit "rue".data rest).map (fun r => (Json.bool true, r))
      else if c = 'f' then (expectLit "alse".data rest).map (fun r => (Json.bool false, r))
      else if c = '"' then (parseStringBody rest).map (fun r => (Json.str r.1, r.2))
      else if c = '[' then
        match skipWs rest with
        | ']' :: r2 => some (Json.arr [], r2)
        | r2 => parseElems fuel r2 []
      else if c = '\x7b' then
        match skipWs rest with
        | '\x7d' :: r2 => some (Json.obj [], r2)
        | r2 => parseFields fuel r2 []
      else (parseNumber (c :: rest)).map (fun r => (Json.num r.1, r.2))

def parseElems : Nat → List Char → List Json → Option (Json × List Char)
  | 0, _, _ => none
  | fuel + 1, s, acc => do
    let (v, r) ← parseValue fuel s
    match skipWs r with
    | ',' :: r2 => parseElems fuel r2 (acc ++ [v])
    | ']' :: r2 => some (Json.arr (acc ++ [v]), r2)
    | _ => none

def parseFields : Nat → List Char → List (List Char × Json) → Option (Json × List Char)
  | 0, _, _ => none
  | fuel + 1, s, acc =>
    match skipWs s with
    | '"' :: r => do
      let (k, r1) ← parseStringBody r
      match skipWs r1 with
      | ':' :: r2 => do
        let (v, r3) ← parseValue fuel r2
        match skipWs r3 with
        | ',' :: r4 => parseFields fuel r4 (objInsert acc k v)
        | '\x7d' :: r4 => some (Json.obj (objInsert acc k v), r4)
        | _ => none
      | _ => none
    | _ => none

end

/-- `serde_json::from_str::<serde_json::Value>`: one value, then only
whitespace up to the end of input.  The fuel `2 * length + 2` suffices
because at least one character is consumed between any two nested
recursive calls. -/
def serdeFromStr (s : List Char) : Option Json :=
  match parseValue (2 * s.length + 2) s with
  | some (v, r) => if skipWs r = [] then some v else none
  | none => none

def lookupField : List (List Char × Json) → List Char → Option Json
  | [], _ => none
  | (k0, v0) :: fs, k => if k0 = k then some v0 else lookupField fs k

/-- `value["key"]`: `Null` when the key is missing or the value is not
an object. -/
def Json.getKey : Json → List Char → Json
  | Json.obj fs, k => (lookupField fs k).getD Json.null
  | _, _ => Json.null

/-- `value[i]`: `Null` when out of bounds or not an array. -/
def Json.getIdx : Json → Nat → Json
  | Json.arr xs, i => xs.getD i Json.null
  | _, _ => Json.null

/-- `Value::as_str`. -/
def Json.asStr : Json → Option (List Char)
  | Json.str s => some s
  | _ => none

def digitsToNat (ds : List Char) : Nat :=
  ds.foldl (fun a c => a * 10 + (c.toNat - 48)) 0

/-- `Value::as_i64`: integer literals only (no fraction or exponent);
the i64 range check is not modelled, no claim exercises it. -/
def Json.asInt : Json → Option Int
  | Json.num raw =>
    match raw with
    | '-' :: ds =>
      if ds ≠ [] ∧ ds.all Char.isDigit then some (-(digitsToNat ds : Int)) else none
    | ds =>
      if ds ≠ [] ∧ ds.all Char.isDigit then some ((digitsToNat ds : Int)) else none
  | _ => none

/-- `Value == &str` (serde's `PartialEq<&str>` on `Value`). -/
def Json.eqStr (j : Json) (s : List Char) : Bool :=
  decide (j.asStr = some s)

/-! ## Per-line event processing of the two adapters -/

def dataHead : List Char := "data: ".data

def doneToken : List Char := "[DONE]".data

/-- One line of the OpenAI-style stream (openai.rs:94-115; the identical
post-stream handling of the leftover buffer is openai.rs:119-137): trim,
require the `data: ` head, skip the `[DONE]` sentinel, JSON-decode, and
emit `choices[0].delta.content` when it is a non-empty string. -/
def openaiHandleLine (em : Emitted) (rawLine : List Char) : Emitted :=
  let line := rustTrim rawLine
  if dataHead.isPrefixOf line then
    let dataStr := line.drop 6
    if dataStr = doneToken then em
    else
      match serdeFromStr dataStr with
      | some data =>
        match ((((data.getKey "choices".data).getIdx 0).getKey "delta".data).getKey
            "content".data).asStr with
        | some contentDelta =>
          if contentDelta = [] then em else applyDelta em (some contentDelta)
        | none => em
      | none => em
  else em

/-- One line of the Anthropic-style stream (anthropic.rs:101-122; the
identical post-stream handling is anthropic.rs:126-146): trim, require
the `data: ` head, JSON-decode, and for a `content_block_delta` event
whose delta is a `text_delta` object emit its `text` (no emptiness
check, unlike the OpenAI adapter).  `delta["type"]` in the source
indexes a `serde_json::Map`, which panics when the key is missing; that
case is modelled as `Null` here and is not reached by any claim. -/
def anthropicHandleLine (em : Emitted) (rawLine : List Char) : Emitted :=
  let line := rustTrim rawLine
  if dataHead.isPrefixOf line then
    let dataStr := line.drop 6
    match serdeFromStr dataStr with
    | some data =>
      if (data.getKey "type".data).eqStr "content_block_delta".data then
        match data.getKey "delta".data with
        | Json.obj delta =>
          if ((lookupField delta "type".data).getD Json.null).eqStr "text_delta".data then
            match ((Json.obj delta).getKey "text".data).asStr with
            | some text => applyDelta em (some text)
            | none => em
          else em
        | _ => em
      else em
    | none => em
  else em

def openaiStreamRun (chunks : List (List Char)) : Emitted :=
  runStream openaiHandleLine chunks

def anthropicStreamRun (chunks : List (List Char)) : Emitted :=
  runStream anthropicHandleLine chunks

/-! ## Bytes and UTF-8

The Rust streaming loops decode every network chunk separately with
`String::from_utf8_lossy(&chunk)` (openai.rs:90, anthropic.rs:98) before
appending it to the carry-over buffer.  `utf8Lossy` models that function
(WHATWG/Unicode "maximal subpart" substitution of U+FFFD, as
implemented by Rust's `core::str::lossy`).  The fuel argument is the
byte count: at least one byte is consumed per step, so it never runs
out. -/

def utf8EncodeChar (c : Char) : List Nat :=
  let n := c.toNat
  if n < 0x80 then [n]
  else if n < 0x800 then [0xC0 + n / 64, 0x80 + n % 64]
  else if n < 0x10000 then [0xE0 + n / 4096, 0x80 + (n / 64) % 64, 0x80 + n % 64]
  else [0xF0 + n / 262144, 0x80 + (n / 4096) % 64, 0x80 + (n / 64) % 64, 0x80 + n % 64]

def utf8Encode (s : List Char) : List Nat :=
  (s.map utf8EncodeChar).flatten

def replChar : Char := Char.ofNat 0xFFFD

def utf8Cont (b : Nat) : Bool :=
  decide (0x80 ≤ b ∧ b ≤ 0xBF)

def utf8Cont2Lo (b : Nat) : Nat := if b = 0xE0 then 0xA0 else 0x80
def utf8Cont2Hi (b : Nat) : Nat := if b = 0xED then 0x9F else 0xBF
def utf8Cont4Lo (b : Nat) : Nat := if b = 0xF0 then 0x90 else 0x80
def utf8Cont4Hi (b : Nat) : Nat := if b = 0xF4 then 0x8F else 0xBF

def utf8LossyAux : Nat → List Nat → List Char
  | 0, _ => []
  | _, [] => []
  | fuel + 1, b :: bs =>
    if b < 0x80 then Char.ofNat b :: utf8LossyAux fuel bs
    else if decide (0xC2 ≤ b ∧ b ≤ 0xDF) then
      match bs with
      | [] => [replChar]
      | b1 :: bs1 =>
        if utf8Cont b1 then
          Char.ofNat ((b - 0xC0) * 64 + (b1 - 0x80)) :: utf8LossyAux fuel bs1
        else replChar :: utf8LossyAux fuel bs
    else if decide (0xE0 ≤ b ∧ b ≤ 0xEF) then
      match bs with
      | [] => [replChar]
      | b1 :: bs1 =>
        if decide (utf8Cont2Lo b ≤ b1 ∧ b1 ≤ utf8Cont2Hi b) then
          match bs1 with
          | [] => [replChar]
          | b2 :: bs2 =>
            if utf8Cont b2 then
              Char.ofNat ((b - 0xE0) * 4096 + (b1 - 0x80) * 64 + (b2 - 0x80)) ::
                utf8LossyAux fuel bs2
            else replChar :: utf8LossyAux fuel bs1
        else replChar :: utf8LossyAux fuel bs
    else if decide (0xF0 ≤ b ∧ b ≤ 0xF4) then
      match bs with
      | [] => [replChar]
      | b1 :: bs1 =>
        if decide (utf8Cont4Lo b ≤ b1 ∧ b1 ≤ utf8Cont4Hi b) then
          match bs1 with
          | [] => [replChar]
          | b2 :: bs2 =>
            if utf8Cont b2 then
              match bs2 with
              | [] => [replChar]
              | b3 :: bs3 =>
                if utf8Cont b3 then
                  Char.ofNat ((b - 0xF0) * 262144 + (b1 - 0x80) * 4096 +
                      (b2 - 0x80) * 64 + (b3 - 0x80)) :: utf8LossyAux fuel bs3
                else replChar :: utf8LossyAux fuel bs2
            else replChar :: utf8LossyAux fuel bs1
        else replChar :: utf8LossyAux fuel bs
    else replChar :: utf8LossyAux fuel bs

def utf8Lossy (bs : List Nat) : List Char :=
  utf8LossyAux bs.length bs

/-- The byte-level streaming run: exactly what the Rust loop does with a
given fragmentation of the response bytes — each chunk is lossily
decoded on its own and then fed to the line-reassembly buffer. -/
def openaiStreamRunBytes (chunks : List (List Nat)) : Emitted :=
  openaiStreamRun (chunks.map utf8Lossy)

def anthropicStreamRunBytes (chunks : List (List Nat)) : Emitted :=
  anthropicStreamRun (chunks.map utf8Lossy)

/-! ## Claim C1: chunk-boundary invariance of the streaming parsers -/

def c1Line : List Char :=
  "data: \x7b\"choices\":[\x7b\"delta\":\x7b\"content\":\"é\"\x7d\x7d]\x7d\n".data

/-- The SSE line above as raw response bytes; byte 39 and byte 40 are
the two-byte UTF-8 encoding `C3 A9` of `'é'`. -/
def c1Bytes : List Nat := utf8Encode c1Line

/-- C1, counterexample to the claim as stated: splitting the response
byte sequence at byte boundary 40 — inside the two-byte encoding of
`'é'` — makes each fragment lossily decode to U+FFFD replacement
characters (openai.rs:90 runs `String::from_utf8_lossy` per chunk), so
the chunked run emits the delta `"��"` while the single-chunk
run emits `"é"`: the callback sequence and accumulated content differ
between the two fragmentations. -/
theorem c1_counterexample_split_inside_utf8 :
    openaiStreamRunBytes [c1Bytes.take 40, c1Bytes.drop 40] ≠ openaiStreamRunBytes [c1Bytes]
    ∧ openaiStreamRunBytes [c1Bytes] =
        { full_content := "é".data, deltas := ["é".data] }
    ∧ openaiStreamRunBytes [c1Bytes.take 40, c1Bytes.drop 40] =
        { full_content := [replChar, replChar], deltas := [[replChar, replChar]] } := by
  refine ⟨by decide, by decide, by decide⟩

/-- C1, amended: for chunk boundaries that fall on UTF-8 character
boundaries (chunks modelled as character strings), every fragmentation
of the response — including boundaries exactly on a line boundary, and
including a trailing line with no terminal newline, which the
post-stream step parses exactly once — produces the same delta-callback
sequence and the same accumulated content as delivering everything as a
single chunk, for both adapters. -/
theorem c1_chunking_invariance (chunks : List (List Char)) :
    openaiStreamRun chunks = openaiStreamRun [chunks.flatten]
    ∧ anthropicStreamRun chunks = anthropicStreamRun [chunks.flatten] :=
  ⟨runStream_flatten openaiHandleLine chunks, runStream_flatten anthropicHandleLine chunks⟩

/-! ## Claim C5: the three-line OpenAI-style example -/

def c5Line1 : List Char :=
  "data: \x7b\"choices\":[\x7b\"delta\":\x7b\"content\":\"Hel\"\x7d\x7d]\x7d\n".data

def c5Line2 : List Char :=
  "data: \x7b\"choices\":[\x7b\"delta\":\x7b\"content\":\"lo\"\x7d\x7d]\x7d\n".data

def c5Line3 : List Char := "data: [DONE]\n".data

/-- C5: the OpenAI-style stream delivering the two content lines and the
`data: [DONE]` line, each newline-terminated, accumulates content
`"Hello"` with exactly two delta-callback invocations, `"Hel"` then
`"lo"`, whether the three lines arrive as one chunk or as three; the
`[DONE]` payload is ignored as the end-of-stream sentinel (it produces
neither a delta nor an error). -/
theorem c5_openai_stream_example :
    openaiStreamRun [c5Line1 ++ c5Line2 ++ c5Line3] =
      { full_content := "Hello".data, deltas := ["Hel".data, "lo".data] }
    ∧ openaiStreamRun [c5Line1, c5Line2, c5Line3] =
      { full_content := "Hello".data, deltas := ["Hel".data, "lo".data] } := by
  refine ⟨by decide, by decide⟩

/-! ## Claim C10: the non-streaming content cleaning (openai.rs:280-292)

`clean_response_content` trims leading whitespace and then repeatedly
strips leading brace pairs and single braces, re-trimming after every
removal; it is applied to the extracted `choices[0].message.content` on
the OpenAI-style non-streaming path (openai.rs:151-154). -/

/-- The first `while` loop: `cleaned.starts_with("}}") || cleaned.starts_with("{{")`
drops two characters and re-trims (openai.rs:284-286). -/
def stripDoubleBraces (s : List Char) : List Char :=
  if h : ("\x7d\x7d".data.isPrefixOf s ∨ "\x7b\x7b".data.isPrefixOf s) then
    stripDoubleBraces (rustTrimStart (s.drop 2))
  else s
termination_by s.length
decreasing_by
  have h2 : 2 ≤ s.length := by
    rcases h with h | h <;>
      simpa using (List.isPrefixOf_iff_prefix.mp h).length_le
  calc (rustTrimStart (s.drop 2)).length ≤ (s.drop 2).length := rustTrimStart_length_le _
    _ < s.length := by simp; omega

/-- The second `while` loop: a single leading `'}'` or `'{'` is dropped
and the rest re-trimmed (openai.rs:287-289). -/
def stripSingleBraces : List Char → List Char
  | [] => []
  | c :: cs =>
    if h : (c = '\x7d' ∨ c = '\x7b') then
      stripSingleBraces (rustTrimStart cs)
    else c :: cs
termination_by s => s.length
decreasing_by
  calc (rustTrimStart cs).length ≤ cs.length := rustTrimStart_length_le _
    _ < (c :: cs).length := by simp

def clean_response_content (content : List Char) : List Char :=
  stripSingleBraces (stripDoubleBraces (rustTrimStart content))

theorem head_not_ws_rustTrimStart (s : List Char) :
    ∀ c, (rustTrimStart s).head? = some c → c.isWhitespace = false := by
  induction s with
  | nil => intro c h; simp [rustTrimStart] at h
  | cons d ds ih =>
    intro c h
    by_cases hd : d.isWhitespace
    · exact ih c (by simpa [rustTrimStart, List.dropWhile, hd] using h)
    · have he : rustTrimStart (d :: ds) = d :: ds := by
        simp [rustTrimStart, List.dropWhile, hd]
      rw [he] at h
      simp only [List.head?_cons, Option.some.injEq] at h
      subst h
      simpa using hd

theorem head?_of_two_isPrefixOf (a b : Char) (s : List Char)
    (h : List.isPrefixOf [a, b] s) : s.head? = some a := by
  rcases List.isPrefixOf_iff_prefix.mp h with ⟨t, ht⟩
  rw [← ht]
  rfl

theorem stripDoubleBraces_head_not_ws :
    ∀ s : List Char, (∀ c, s.head? = some c → c.isWhitespace = false) →
      ∀ c, (stripDoubleBraces s).head? = some c → c.isWhitespace = false := by
  intro s
  induction s using stripDoubleBraces.induct with
  | case1 s h ih =>
    intro _ c hc
    rw [stripDoubleBraces, dif_pos h] at hc
    exact ih (fun c h => head_not_ws_rustTrimStart _ c h) c hc
  | case2 s h =>
    intro hs c hc
    rw [stripDoubleBraces, dif_neg h] at hc
    exact hs c hc

theorem stripSingleBraces_head_not_ws :
    ∀ s : List Char, (∀ c, s.head? = some c → c.isWhitespace = false) →
      ∀ c, (stripSingleBraces s).head? = some c → c.isWhitespace = false := by
  intro s
  induction s using stripSingleBraces.induct with
  | case1 =>
    intro _ c hc
    simp [stripSingleBraces] at hc
  | case2 d ds h ih =>
    intro _ c hc
    rw [stripSingleBraces, dif_pos h] at hc
    exact ih (fun c h => head_not_ws_rustTrimStart _ c h) c hc
  | case3 d ds h =>
    intro hs c hc
    rw [stripSingleBraces, dif_neg h] at hc
    exact hs c hc

theorem stripSingleBraces_head_not_brace :
    ∀ s : List Char, ∀ c, (stripSingleBraces s).head? = some c →
      ¬(c = '\x7d' ∨ c = '\x7b') := by
  intro s
  induction s using stripSingleBraces.induct with
  | case1 =>
    intro c hc
    simp [stripSingleBraces] at hc
  | case2 d ds h ih =>
    intro c hc
    rw [stripSingleBraces, dif_pos h] at hc
    exact ih c hc
  | case3 d ds h =>
    intro c hc
    rw [stripSingleBraces, dif_neg h] at hc
    simp only [List.head?_cons, Option.some.injEq] at hc
    subst hc
    exact h

theorem rustTrimStart_eq_self (s : List Char)
    (hs : ∀ c, s.head? = some c → c.isWhitespace = false) : rustTrimStart s = s := by
  cases s with
  | nil => rfl
  | cons d ds =>
    have := hs d rfl
    simp [rustTrimStart, List.dropWhile, this]

theorem stripDoubleBraces_eq_self (s : List Char)
    (hs : ∀ c, s.head? = some c → ¬(c = '\x7d' ∨ c = '\x7b')) :
    stripDoubleBraces s = s := by
  rw [stripDoubleBraces, dif_neg]
  rintro (h | h)
  · exact hs '\x7d' (head?_of_two_isPrefixOf _ _ _ h) (Or.inl rfl)
  · exact hs '\x7b' (head?_of_two_isPrefixOf _ _ _ h) (Or.inr rfl)

theorem stripSingleBraces_eq_self (s : List Char)
    (hs : ∀ c, s.head? = some c → ¬(c = '\x7d' ∨ c = '\x7b')) :
    stripSingleBraces s = s := by
  cases s with
  | nil => simp [stripSingleBraces]
  | cons d ds =>
    rw [stripSingleBraces, dif_neg (hs d rfl)]

/-- Non-streaming content extraction of the OpenAI-style adapter
(openai.rs:151-154):
`data["choices"][0]["message"]["content"].as_str().map(clean_response_content).unwrap_or_default()`. -/
def openaiNonStreamContent (data : Json) : List Char :=
  match ((((data.getKey "choices".data).getIdx 0).getKey "message".data).getKey
      "content".data).asStr with
  | some s => clean_response_content s
  | none => []

/-- C10: the OpenAI-style non-streaming path returns
`clean_response_content` of the provider text, not the text verbatim;
for every input the cleaned result never begins with a brace or with
whitespace, and the cleaning function is idempotent. -/
theorem c10_clean_response_content (s : List Char) :
    (∀ c, (clean_response_content s).head? = some c →
      ¬(c = '\x7b' ∨ c = '\x7d') ∧ c.isWhitespace = false)
    ∧ clean_response_content (clean_response_content s) = clean_response_content s
    ∧ (∀ data text,
        ((((data.getKey "choices".data).getIdx 0).getKey "message".data).getKey
          "content".data).asStr = some text →
        openaiNonStreamContent data = clean_response_content text) := by
  have hnb : ∀ c, (clean_response_content s).head? = some c →
      ¬(c = '\x7d' ∨ c = '\x7b') := fun c hc =>
    stripSingleBraces_head_not_brace _ c hc
  have hnw : ∀ c, (clean_response_content s).head? = some c → c.isWhitespace = false := by
    intro c hc
    exact stripSingleBraces_head_not_ws _
      (stripDoubleBraces_head_not_ws _ (head_not_ws_rustTrimStart s)) c hc
  refine ⟨fun c hc => ⟨fun h => hnb c hc (Or.symm h), hnw c hc⟩, ?_, ?_⟩
  · have hrw : clean_response_content (clean_response_content s) =
        stripSingleBraces (stripDoubleBraces (rustTrimStart (clean_response_content s))) := rfl
    rw [hrw, rustTrimStart_eq_self _ hnw, stripDoubleBraces_eq_self _ hnb,
      stripSingleBraces_eq_self _ hnb]
  · intro data text ht
    simp [openaiNonStreamContent, ht]

/-! ## Data model (llm.rs:7-45, db/model_config.rs) -/

structure RecognitionResult where
  success : Bool
  content : Option (List Char)
  error : Option (List Char)
  tokens_used : Option Int
  duration_ms : Option Int
  processed_image : Option (List Char)
deriving DecidableEq, Repr

/-- llm.rs:20-26.  `temperature` and `top_p` are `f32` in the source;
no claim depends on float arithmetic, so an optional value is modelled
by the JSON numeral it serialises to. -/
structure RecognitionOptions where
  temperature : Option (List Char)
  top_p : Option (List Char)
  max_tokens : Option Int
  stream : Option Bool
  custom_params : Option Json

structure AdapterConfig where
  api_url : List Char
  api_key : List Char
  model_name : List Char
  max_tokens : Int

structure ModelConfig where
  id : Int
  name : List Char
  provider : List Char
  api_url : List Char
  api_key : List Char
  api_key_encrypted : List Char
  model_name : List Char
  max_tokens : Int
  is_active : Bool
  is_default : Bool
  created_at : List Char
  updated_at : List Char

/-- `impl From<&ModelConfig> for AdapterConfig` (llm.rs:36-45). -/
def AdapterConfig.fromModelConfig (config : ModelConfig) : AdapterConfig :=
  { api_url := config.api_url
    api_key := config.api_key
    model_name := config.model_name
    max_tokens := config.max_tokens }

/-! ## Request bodies (openai.rs:32-67, anthropic.rs:32-74) -/

def intRepr (i : Int) : List Char :=
  if i < 0 then '-' :: Nat.toDigits 10 i.natAbs else Nat.toDigits 10 i.natAbs

def intToJson (i : Int) : Json := Json.num (intRepr i)

/-- `format!("data:{};base64,{}", image_mime_type, image_base64)` (openai.rs:41). -/
def dataUrl (image_mime_type image_base64 : List Char) : List Char :=
  "data:".data ++ image_mime_type ++ ";base64,".data ++ image_base64

/-- `request_body[key] = value` / `obj.insert(...)` on a `Value` that is
an object (the request bodies always are; on other variants serde would
panic or coerce, which is never reached here). -/
def jsonSetKey (j : Json) (k : List Char) (v : Json) : Json :=
  match j with
  | Json.obj fs => Json.obj (objInsert fs k v)
  | _ => j

/-- The `json!` literal of openai.rs:32-47. -/
def openaiBaseBody (config : AdapterConfig) (image_base64 image_mime_type prompt : List Char)
    (options : RecognitionOptions) : Json :=
  Json.obj [
    ("model".data, Json.str config.model_name),
    ("messages".data, Json.arr [Json.obj [
      ("role".data, Json.str "user".data),
      ("content".data, Json.arr [
        Json.obj [("type".data, Json.str "text".data), ("text".data, Json.str prompt)],
        Json.obj [("type".data, Json.str "image_url".data),
          ("image_url".data,
            Json.obj [("url".data, Json.str (dataUrl image_mime_type image_base64))])]])]]),
    ("max_tokens".data, intToJson (options.max_tokens.getD config.max_tokens))]

/-- The outgoing OpenAI-style request body after the stream flag,
optional numeric options and the custom-params merge (openai.rs:49-67). -/
def openaiRequestBody (config : AdapterConfig) (image_base64 image_mime_type prompt : List Char)
    (options : RecognitionOptions) (has_callback : Bool) : Json :=
  let request_body := openaiBaseBody config image_base64 image_mime_type prompt options
  let is_streaming := options.stream.getD false && has_callback
  let request_body := jsonSetKey request_body "stream".data (Json.bool is_streaming)
  let request_body :=
    match options.temperature with
    | some temp => jsonSetKey request_body "temperature".data (Json.num temp)
    | none => request_body
  let request_body :=
    match options.top_p with
    | some tp => jsonSetKey request_body "top_p".data (Json.num tp)
    | none => request_body
  match options.custom_params with
  | some (Json.obj ps) => ps.foldl (fun b kv => jsonSetKey b kv.1 kv.2) request_body
  | _ => request_body

/-- Mime conversion of anthropic.rs:33-39. -/
def anthropicMediaType (image_mime_type : List Char) : List Char :=
  if image_mime_type = "image/jpeg".data then "image/jpeg".data
  else if image_mime_type = "image/png".data then "image/png".data
  else if image_mime_type = "image/gif".data then "image/gif".data
  else if image_mime_type = "image/webp".data then "image/webp".data
  else "image/jpeg".data

/-- The outgoing Anthropic-style request body (anthropic.rs:41-74): the
`json!` literal, the stream flag, and the optional numeric options.
The source never reads `options.custom_params` on this path. -/
def anthropicRequestBody (config : AdapterConfig) (image_base64 image_mime_type prompt : List Char)
    (options : RecognitionOptions) (has_callback : Bool) : Json :=
  let media_type := anthropicMediaType image_mime_type
  let request_body := Json.obj [
    ("model".data, Json.str config.model_name),
    ("max_tokens".data, intToJson (options.max_tokens.getD config.max_tokens)),
    ("messages".data, Json.arr [Json.obj [
      ("role".data, Json.str "user".data),
      ("content".data, Json.arr [
        Json.obj [("type".data, Json.str "image".data),
          ("source".data, Json.obj [
            ("type".data, Json.str "base64".data),
            ("media_type".data, Json.str media_type),
            ("data".data, Json.str image_base64)])],
        Json.obj [("type".data, Json.str "text".data), ("text".data, Json.str prompt)]])]])]
  let is_streaming := options.stream.getD false && has_callback
  let request_body := jsonSetKey request_body "stream".data (Json.bool is_streaming)
  let request_body :=
    match options.temperature with
    | some temp => jsonSetKey request_body "temperature".data (Json.num temp)
    | none => request_body
  match options.top_p with
  | some tp => jsonSetKey request_body "top_p".data (Json.num tp)
  | none => request_body

def Json.lookupKey : Json → List Char → Option Json
  | Json.obj fs, k => lookupField fs k
  | _, _ => none

/-! ## Claim C9: verbatim merge of the custom-params bag -/

theorem lookupField_objInsert_self (fs : List (List Char × Json)) (k : List Char) (v : Json) :
    lookupField (objInsert fs k v) k = some v := by
  induction fs with
  | nil => simp [objInsert, lookupField]
  | cons f fs ih =>
    by_cases h : f.1 = k
    · simp [objInsert, lookupField, h]
    · simp [objInsert, lookupField, h, ih]

theorem lookupField_objInsert_ne (fs : List (List Char × Json)) (k k2 : List Char) (v : Json)
    (h : k2 ≠ k) : lookupField (objInsert fs k v) k2 = lookupField fs k2 := by
  have hk : ¬(k = k2) := fun he => h he.symm
  induction fs with
  | nil => simp [objInsert, lookupField, hk]
  | cons f fs ih =>
    rcases f with ⟨k0, v0⟩
    by_cases hf : k0 = k
    · subst hf
      simp [objInsert, lookupField, hk]
    · simp only [objInsert, if_neg hf, lookupField]
      by_cases hf2 : k0 = k2 <;> simp [hf2, ih]

theorem foldl_objInsert_not_mem (ps : List (List Char × Json)) :
    ∀ fs k, k ∉ ps.map Prod.fst →
      lookupField (ps.foldl (fun b kv => objInsert b kv.1 kv.2) fs) k = lookupField fs k := by
  induction ps with
  | nil => intro fs k _; rfl
  | cons p ps ih =>
    intro fs k hk
    simp only [List.map_cons, List.mem_cons, not_or] at hk
    rw [List.foldl_cons, ih _ _ hk.2, lookupField_objInsert_ne _ _ _ _ hk.1]

theorem foldl_objInsert_mem (ps : List (List Char × Json)) :
    ∀ fs k v, (k, v) ∈ ps → (ps.map Prod.fst).Nodup →
      lookupField (ps.foldl (fun b kv => objInsert b kv.1 kv.2) fs) k = some v := by
  induction ps with
  | nil => intro fs k v hm; simp at hm
  | cons p ps ih =>
    intro fs k v hm hnd
    simp only [List.map_cons, List.nodup_cons] at hnd
    rcases List.mem_cons.mp hm with he | hm2
    · subst he
      rw [List.foldl_cons, foldl_objInsert_not_mem ps _ k hnd.1,
        lookupField_objInsert_self]
    · exact ih _ k v hm2 hnd.2

theorem foldl_jsonSetKey_obj (ps : List (List Char × Json)) :
    ∀ fs, ps.foldl (fun b kv => jsonSetKey b kv.1 kv.2) (Json.obj fs) =
      Json.obj (ps.foldl (fun b kv => objInsert b kv.1 kv.2) fs) := by
  induction ps with
  | nil => intro fs; rfl
  | cons p ps ih => intro fs; rw [List.foldl_cons, List.foldl_cons, jsonSetKey, ih]

/-- The OpenAI-style body before the custom-params merge is always a
JSON object, whichever optional fields are present. -/
theorem openaiPreMergeBody_isObj (config : AdapterConfig)
    (image_base64 image_mime_type prompt : List Char) (options : RecognitionOptions)
    (has_callback : Bool) : ∃ fs,
    (let request_body := openaiBaseBody config image_base64 image_mime_type prompt options
     let is_streaming := options.stream.getD false && has_callback
     let request_body := jsonSetKey request_body "stream".data (Json.bool is_streaming)
     let request_body :=
       match options.temperature with
       | some temp => jsonSetKey request_body "temperature".data (Json.num temp)
       | none => request_body
     match options.top_p with
     | some tp => jsonSetKey request_body "top_p".data (Json.num tp)
     | none => request_body) = Json.obj fs := by
  rcases options with ⟨t, tp, mt, st, cp⟩
  rcases t with _ | t <;> rcases tp with _ | tp <;>
    exact ⟨_, rfl⟩

/-- C9, amended: the OpenAI-style adapter merges every key/value pair of
the custom-params bag verbatim into the outgoing request body,
overwriting any built-in field of the same name; the Anthropic-style
adapter ignores the bag entirely (its body is independent of
`custom_params`). -/
theorem c9_custom_params_merge (config : AdapterConfig)
    (image_base64 image_mime_type prompt : List Char) (options : RecognitionOptions)
    (has_callback : Bool) (ps : List (List Char × Json)) (k : List Char) (v : Json)
    (hcp : options.custom_params = some (Json.obj ps))
    (hmem : (k, v) ∈ ps) (hnd : (ps.map Prod.fst).Nodup) :
    (openaiRequestBody config image_base64 image_mime_type prompt options
        has_callback).lookupKey k = some v
    ∧ ∀ cp2, anthropicRequestBody config image_base64 image_mime_type prompt
        { options with custom_params := cp2 } has_callback =
      anthropicRequestBody config image_base64 image_mime_type prompt options has_callback := by
  constructor
  · rcases openaiPreMergeBody_isObj config image_base64 image_mime_type prompt options
      has_callback with ⟨fs, hfs⟩
    simp only [openaiRequestBody, hcp]
    simp only at hfs
    rw [hfs, foldl_jsonSetKey_obj, Json.lookupKey,
      foldl_objInsert_mem ps fs k v hmem hnd]
  · intro cp2
    rcases options with ⟨t, tp, mt, st, cp⟩
    rfl

def c9Options : RecognitionOptions :=
  { temperature := none, top_p := none, max_tokens := none, stream := some true,
    custom_params := some (Json.obj [("foo".data, Json.str "bar".data)]) }

def c9Config : AdapterConfig :=
  { api_url := "https://example/v1".data, api_key := "k".data,
    model_name := "m".data, max_tokens := 1024 }

/-- C9, counterexample to the claim as stated: with a custom-params bag
holding the pair `foo ↦ "bar"`, the OpenAI-style body carries the pair
but the Anthropic-style body does not contain the key `foo` at all —
the Anthropic adapter (anthropic.rs:41-74) never merges the bag. -/
theorem c9_counterexample_anthropic_ignores_bag :
    (anthropicRequestBody c9Config "img".data "image/png".data "p".data c9Options
        true).lookupKey "foo".data = none
    ∧ (openaiRequestBody c9Config "img".data "image/png".data "p".data c9Options
        true).lookupKey "foo".data = some (Json.str "bar".data) := by
  exact ⟨rfl, rfl⟩

/-! ## Claim C6: orchestrator error handling before dispatch (llm.rs:47-114) -/

/-- llm.rs:57-66. -/
def resultConfigMissing : RecognitionResult :=
  { success := false, content := none, error := some "配置不存在".data,
    tokens_used := none, duration_ms := none, processed_image := none }

/-- llm.rs:67-76: `format!("获取配置失败: {}", e)`. -/
def resultConfigLookupFailed (e : List Char) : RecognitionResult :=
  { success := false, content := none, error := some ("获取配置失败: ".data ++ e),
    tokens_used := none, duration_ms := none, processed_image := none }

/-- llm.rs:79-88. -/
def resultConfigDisabled : RecognitionResult :=
  { success := false, content := none, error := some "该配置已禁用".data,
    tokens_used := none, duration_ms := none, processed_image := none }

/-- llm.rs:106-113: `format!("不支持的供应商类型: {}", config.provider)`. -/
def resultUnsupportedProvider (provider : List Char) : RecognitionResult :=
  { success := false, content := none,
    error := some ("不支持的供应商类型: ".data ++ provider),
    tokens_used := none, duration_ms := none, processed_image := none }

/-- llm.rs:91-97. -/
def defaultOptions : RecognitionOptions :=
  { temperature := none, top_p := none, max_tokens := none, stream := none,
    custom_params := none }

/-- What `llm::recognize` decides to do before any network traffic:
either it returns one of the reported error results above, or it calls
one of the two adapters.  `lookup` is the outcome of
`get_config_by_id(config_id)` (the database collaborator). -/
inductive RecognizeDispatch where
  | errorResult (r : RecognitionResult)
  | callOpenai (cfg : AdapterConfig) (options : RecognitionOptions)
  | callAnthropic (cfg : AdapterConfig) (options : RecognitionOptions)

/-- llm.rs:55-114, up to (and including) the provider match. -/
def llmRecognizeDispatch (lookup : Except (List Char) (Option ModelConfig))
    (options : Option RecognitionOptions) : RecognizeDispatch :=
  match lookup with
  | .ok (some config) =>
    if ¬ config.is_active then
      .errorResult resultConfigDisabled
    else
      let adapter_config := AdapterConfig.fromModelConfig config
      let options := options.getD defaultOptions
      if config.provider = "openai".data ∨ config.provider = "azure".data ∨
          config.provider = "oneapi".data ∨ config.provider = "custom".data then
        .callOpenai adapter_config options
      else if config.provider = "anthropic".data then
        .callAnthropic adapter_config options
      else
        .errorResult (resultUnsupportedProvider config.provider)
  | .ok none => .errorResult resultConfigMissing
  | .error e => .errorResult (resultConfigLookupFailed e)

theorem cons_lists_ne {a b : Char} {xs ys : List Char} (h : a ≠ b) :
    (a :: xs) ≠ (b :: ys) := by
  intro he
  injection he with h1 _
  exact h h1

/-- C6: each of the four pre-network failure cases of `recognize` is a
reported error result (no adapter is called), the four error messages
are pairwise distinct whatever the lookup-error and provider strings
are, the unsupported-provider message contains the literal provider
string as a suffix, and every other provider string falls in the closed
mapping to the two adapters. -/
theorem c6_recognize_reported_errors (opts : Option RecognitionOptions) (e : List Char)
    (config : ModelConfig) :
    llmRecognizeDispatch (.ok none) opts = .errorResult resultConfigMissing
    ∧ llmRecognizeDispatch (.error e) opts = .errorResult (resultConfigLookupFailed e)
    ∧ (config.is_active = false →
        llmRecognizeDispatch (.ok (some config)) opts = .errorResult resultConfigDisabled)
    ∧ (config.is_active = true →
        config.provider ∉ ["openai".data, "azure".data, "oneapi".data, "custom".data,
          "anthropic".data] →
        llmRecognizeDispatch (.ok (some config)) opts =
          .errorResult (resultUnsupportedProvider config.provider)
        ∧ List.IsSuffix config.provider
            ("不支持的供应商类型: ".data ++ config.provider))
    ∧ (config.is_active = true →
        (config.provider = "openai".data ∨ config.provider = "azure".data ∨
          config.provider = "oneapi".data ∨ config.provider = "custom".data) →
        llmRecognizeDispatch (.ok (some config)) opts =
          .callOpenai (AdapterConfig.fromModelConfig config) (opts.getD defaultOptions))
    ∧ (config.is_active = true → config.provider = "anthropic".data →
        llmRecognizeDispatch (.ok (some config)) opts =
          .callAnthropic (AdapterConfig.fromModelConfig config) (opts.getD defaultOptions))
    ∧ resultConfigMissing.error ≠ (resultConfigLookupFailed e).error
    ∧ resultConfigMissing.error ≠ resultConfigDisabled.error
    ∧ resultConfigMissing.error ≠ (resultUnsupportedProvider config.provider).error
    ∧ (resultConfigLookupFailed e).error ≠ resultConfigDisabled.error
    ∧ (resultConfigLookupFailed e).error ≠ (resultUnsupportedProvider config.provider).error
    ∧ resultConfigDisabled.error ≠ (resultUnsupportedProvider config.provider).error := by
  refine ⟨rfl, rfl, ?_, ?_, ?_, ?_, ?_, ?_, ?_, ?_, ?_, ?_⟩
  · intro hia
    simp [llmRecognizeDispatch, hia]
  · intro hia hprov
    simp only [List.mem_cons, List.mem_singleton, not_or] at hprov
    refine ⟨?_, "不支持的供应商类型: ".data, rfl⟩
    simp [llmRecognizeDispatch, hia, hprov.1, hprov.2.1, hprov.2.2.1, hprov.2.2.2.1,
      hprov.2.2.2.2]
  · intro hia hprov
    rcases hprov with h | h | h | h <;> simp [llmRecognizeDispatch, hia, h]
  · intro hia hprov
    have h1 : ("anthropic".data : List Char) ≠ "openai".data := by decide
    have h2 : ("anthropic".data : List Char) ≠ "azure".data := by decide
    have h3 : ("anthropic".data : List Char) ≠ "oneapi".data := by decide
    have h4 : ("anthropic".data : List Char) ≠ "custom".data := by decide
    simp [llmRecognizeDispatch, hia, hprov, h1, h2, h3, h4]
  · simp only [resultConfigMissing, resultConfigLookupFailed, ne_eq, Option.some.injEq]
    exact fun h => cons_lists_ne (by decide) h
  · simp only [resultConfigMissing, resultConfigDisabled, ne_eq, Option.some.injEq]
    exact fun h => cons_lists_ne (by decide) h
  · simp only [resultConfigMissing, resultUnsupportedProvider, ne_eq, Option.some.injEq]
    exact fun h => cons_lists_ne (by decide) h
  · simp only [resultConfigLookupFailed, resultConfigDisabled, ne_eq, Option.some.injEq]
    exact fun h => cons_lists_ne (by decide) h
  · simp only [resultConfigLookupFailed, resultUnsupportedProvider, ne_eq, Option.some.injEq]
    exact fun h => cons_lists_ne (by decide) h
  · simp only [resultConfigDisabled, resultUnsupportedProvider, ne_eq, Option.some.injEq]
    exact fun h => cons_lists_ne (by decide) h

/-! ## Result construction sites of the adapters (claims C7, C8) -/

def natRepr (n : Nat) : List Char := Nat.toDigits 10 n

/-- Shared fallback of both classifiers:
`format!("服务器错误 ({}): {}", status, body)`. -/
def serverErrorMsg (status : Nat) (body : List Char) : List Char :=
  "服务器错误 (".data ++ natRepr status ++ "): ".data ++ body

/-- openai.rs:263-278. -/
def openaiParseErrorMessage (status : Nat) (body : List Char) : List Char :=
  if status = 401 then "API 密钥无效".data
  else if status = 404 then "API 地址错误或模型不存在".data
  else if status = 429 then "请求频率过高或配额已用尽".data
  else
    match serdeFromStr body with
    | some data =>
      match ((data.getKey "error".data).getKey "message".data).asStr with
      | some msg => msg
      | none => serverErrorMsg status body
    | none => serverErrorMsg status body

/-- anthropic.rs:279-294 (adds the 403 case). -/
def anthropicParseErrorMessage (status : Nat) (body : List Char) : List Char :=
  if status = 401 then "API 密钥无效".data
  else if status = 403 then "API 密钥权限不足".data
  else if status = 404 then "API 地址错误或模型不存在".data
  else if status = 429 then "请求频率过高或配额已用尽".data
  else
    match serdeFromStr body with
    | some data =>
      match ((data.getKey "error".data).getKey "message".data).asStr with
      | some msg => msg
      | none => serverErrorMsg status body
    | none => serverErrorMsg status body

/-- Non-streaming extraction of the Anthropic adapter (anthropic.rs:160-165):
`data["content"].as_array().and_then(|arr| arr.first()).and_then(|block| block["text"].as_str())`,
defaulting to the empty string. -/
def anthropicNonStreamContent (data : Json) : List Char :=
  match data.getKey "content".data with
  | Json.arr blocks =>
    match blocks.head? with
    | some block => ((block.getKey "text".data).asStr).getD []
    | none => []
  | _ => []

/-- anthropic.rs:167-169: sum of `usage.input_tokens` and
`usage.output_tokens`, each defaulting to 0. -/
def anthropicTokens (data : Json) : Int :=
  (((data.getKey "usage".data).getKey "input_tokens".data).asInt.getD 0) +
    (((data.getKey "usage".data).getKey "output_tokens".data).asInt.getD 0)

/-- openai.rs:155-157 (`usage.total_tokens`; the `as i32` cast is not
modelled). -/
def openaiTokens (data : Json) : Option Int :=
  ((data.getKey "usage".data).getKey "total_tokens".data).asInt

/-- openai.rs:17-24 and anthropic.rs:17-24: the fail-fast result for an
empty image payload, the only return site with no duration. -/
def emptyImageResult : RecognitionResult :=
  { success := false, content := none, error := some "Image data is empty".data,
    tokens_used := none, duration_ms := none, processed_image := none }

/-- openai.rs:139-146. -/
def openaiStreamSuccess (em : Emitted) (dur : Int) : RecognitionResult :=
  { success := true, content := some em.full_content, error := none,
    tokens_used := none, duration_ms := some dur, processed_image := none }

/-- openai.rs:159-166. -/
def openaiJsonSuccess (data : Json) (dur : Int) : RecognitionResult :=
  { success := true, content := some (openaiNonStreamContent data), error := none,
    tokens_used := openaiTokens data, duration_ms := some dur, processed_image := none }

/-- openai.rs:168-175 / anthropic.rs:180-187:
`format!("解析响应失败: {}", e)`. -/
def parseFailureResult (e : List Char) (dur : Int) : RecognitionResult :=
  { success := false, content := none, error := some ("解析响应失败: ".data ++ e),
    tokens_used := none, duration_ms := some dur, processed_image := none }

/-- openai.rs:183-190 / anthropic.rs:195-202 (msg comes from the
respective status classifier). -/
def httpFailureResult (msg : List Char) (dur : Int) : RecognitionResult :=
  { success := false, content := none, error := some msg,
    tokens_used := none, duration_ms := some dur, processed_image := none }

/-- openai.rs:193-209 / anthropic.rs:205-222: the three transport
failure classes. -/
def timeoutResult (dur : Int) : RecognitionResult :=
  { success := false, content := none, error := some "请求超时，请检查网络连接".data,
    tokens_used := none, duration_ms := some dur, processed_image := none }

def connectFailResult (dur : Int) : RecognitionResult :=
  { success := false, content := none,
    error := some "连接失败，请检查网络连接或 API 地址".data,
    tokens_used := none, duration_ms := some dur, processed_image := none }

def requestFailResult (e : List Char) (dur : Int) : RecognitionResult :=
  { success := false, content := none, error := some ("请求失败: ".data ++ e),
    tokens_used := none, duration_ms := some dur, processed_image := none }

/-- anthropic.rs:148-155. -/
def anthropicStreamSuccess (em : Emitted) (dur : Int) : RecognitionResult :=
  { success := true, content := some em.full_content, error := none,
    tokens_used := none, duration_ms := some dur, processed_image := none }

/-- anthropic.rs:171-178. -/
def anthropicJsonSuccess (data : Json) (dur : Int) : RecognitionResult :=
  { success := true, content := some (anthropicNonStreamContent data), error := none,
    tokens_used := some (anthropicTokens data), duration_ms := some dur,
    processed_image := none }

/-- Every return site of `call_openai` that is reached after the
network call was issued (openai.rs:79-211), indexed by the measured
duration.  The async control flow is embedded as a return-site
relation: one constructor per `RecognitionResult` literal in the
source, parameterised by the data that flowed into it. -/
inductive OpenaiNetReturn (dur : Int) : RecognitionResult → Prop where
  | streamed (chunks : List (List Nat)) :
      OpenaiNetReturn dur (openaiStreamSuccess (openaiStreamRunBytes chunks) dur)
  | parsedBody (data : Json) : OpenaiNetReturn dur (openaiJsonSuccess data dur)
  | parseFailed (e : List Char) : OpenaiNetReturn dur (parseFailureResult e dur)
  | httpError (status : Nat) (body : List Char) :
      OpenaiNetReturn dur (httpFailureResult (openaiParseErrorMessage status body) dur)
  | timedOut : OpenaiNetReturn dur (timeoutResult dur)
  | connectFailed : OpenaiNetReturn dur (connectFailResult dur)
  | requestFailed (e : List Char) : OpenaiNetReturn dur (requestFailResult e dur)

/-- Every return site of `call_anthropic` after the network call
(anthropic.rs:87-223). -/
inductive AnthropicNetReturn (dur : Int) : RecognitionResult → Prop where
  | streamed (chunks : List (List Nat)) :
      AnthropicNetReturn dur (anthropicStreamSuccess (anthropicStreamRunBytes chunks) dur)
  | parsedBody (data : Json) : AnthropicNetReturn dur (anthropicJsonSuccess data dur)
  | parseFailed (e : List Char) : AnthropicNetReturn dur (parseFailureResult e dur)
  | httpError (status : Nat) (body : List Char) :
      AnthropicNetReturn dur (httpFailureResult (anthropicParseErrorMessage status body) dur)
  | timedOut : AnthropicNetReturn dur (timeoutResult dur)
  | connectFailed : AnthropicNetReturn dur (connectFailResult dur)
  | requestFailed (e : List Char) : AnthropicNetReturn dur (requestFailResult e dur)

/-- The whole of `call_openai` (openai.rs:6-212): the guard at
openai.rs:16-25 returns `emptyImageResult` before any network call;
every other result comes from a post-network return site. -/
inductive CallOpenaiReturn (image_base64 : List Char) : RecognitionResult → Prop where
  | emptyImage : image_base64 = [] → CallOpenaiReturn image_base64 emptyImageResult
  | net (dur : Int) (r : RecognitionResult) : image_base64 ≠ [] →
      OpenaiNetReturn dur r → CallOpenaiReturn image_base64 r

/-- The whole of `call_anthropic` (anthropic.rs:6-224). -/
inductive CallAnthropicReturn (image_base64 : List Char) : RecognitionResult → Prop where
  | emptyImage : image_base64 = [] → CallAnthropicReturn image_base64 emptyImageResult
  | net (dur : Int) (r : RecognitionResult) : image_base64 ≠ [] →
      AnthropicNetReturn dur r → CallAnthropicReturn image_base64 r

/-- Every result `llm::recognize` can hand back (llm.rs:47-130): a
pre-dispatch reported error, or an adapter result.  The history write at
llm.rs:116-127 discards its own outcome (`let _ = ...`) and does not
alter the returned result. -/
inductive LlmRecognizeReturn (image_base64 : List Char) : RecognitionResult → Prop where
  | dispatched (lookup : Except (List Char) (Option ModelConfig))
      (opts : Option RecognitionOptions) (r : RecognitionResult) :
      llmRecognizeDispatch lookup opts = .errorResult r →
      LlmRecognizeReturn image_base64 r
  | viaOpenai (r : RecognitionResult) : CallOpenaiReturn image_base64 r →
      LlmRecognizeReturn image_base64 r
  | viaAnthropic (r : RecognitionResult) : CallAnthropicReturn image_base64 r →
      LlmRecognizeReturn image_base64 r

/-! ## Claims C7 and C8 -/

theorem openaiNetReturn_shape (dur : Int) (r : RecognitionResult)
    (h : OpenaiNetReturn dur r) :
    (r.success = true ∧ r.content.isSome = true ∧ r.error = none)
    ∨ (r.success = false ∧ r.error.isSome = true ∧ r.content = none) := by
  cases h <;>
    simp [openaiStreamSuccess, openaiJsonSuccess, parseFailureResult, httpFailureResult,
      timeoutResult, connectFailResult, requestFailResult]

theorem anthropicNetReturn_shape (dur : Int) (r : RecognitionResult)
    (h : AnthropicNetReturn dur r) :
    (r.success = true ∧ r.content.isSome = true ∧ r.error = none)
    ∨ (r.success = false ∧ r.error.isSome = true ∧ r.content = none) := by
  cases h <;>
    simp [anthropicStreamSuccess, anthropicJsonSuccess, parseFailureResult,
      httpFailureResult, timeoutResult, connectFailResult, requestFailResult]

theorem dispatch_error_shape (lookup : Except (List Char) (Option ModelConfig))
    (opts : Option RecognitionOptions) (r : RecognitionResult)
    (h : llmRecognizeDispatch lookup opts = .errorResult r) :
    r.success = false ∧ r.error.isSome = true ∧ r.content = none := by
  rcases lookup with e | o
  · simp only [llmRecognizeDispatch] at h
    injection h with h
    subst h
    simp [resultConfigLookupFailed]
  · rcases o with _ | config
    · simp only [llmRecognizeDispatch] at h
      injection h with h
      subst h
      simp [resultConfigMissing]
    · simp only [llmRecognizeDispatch] at h
      by_cases hia : config.is_active = true
      · rw [if_neg (not_not_intro hia)] at h
        by_cases hp : (config.provider = "openai".data ∨ config.provider = "azure".data ∨
            config.provider = "oneapi".data ∨ config.provider = "custom".data)
        · simp only [if_pos hp] at h
          cases h
        · rw [if_neg hp] at h
          by_cases hp2 : config.provider = "anthropic".data
          · simp only [if_pos hp2] at h
            cases h
          · rw [if_neg hp2] at h
            injection h with h
            subst h
            simp [resultUnsupportedProvider]
      · rw [if_pos hia] at h
        injection h with h
        subst h
        simp [resultConfigDisabled]

/-- C7: every `RecognitionResult` any adapter or the orchestrator can
produce satisfies exactly one of "content present with success" and
"error present with failure": the two fields are never both populated,
and success implies content is present (possibly empty). -/
theorem c7_result_exclusivity (image_base64 : List Char) (r : RecognitionResult)
    (h : CallOpenaiReturn image_base64 r ∨ CallAnthropicReturn image_base64 r ∨
      LlmRecognizeReturn image_base64 r) :
    (r.success = true ∧ r.content.isSome = true ∧ r.error = none)
    ∨ (r.success = false ∧ r.error.isSome = true ∧ r.content = none) := by
  have hoa : CallOpenaiReturn image_base64 r →
      (r.success = true ∧ r.content.isSome = true ∧ r.error = none)
      ∨ (r.success = false ∧ r.error.isSome = true ∧ r.content = none) := by
    intro hc
    cases hc with
    | emptyImage _ => exact Or.inr (by simp [emptyImageResult])
    | net dur r _ hn => exact openaiNetReturn_shape dur r hn
  have han : CallAnthropicReturn image_base64 r →
      (r.success = true ∧ r.content.isSome = true ∧ r.error = none)
      ∨ (r.success = false ∧ r.error.isSome = true ∧ r.content = none) := by
    intro hc
    cases hc with
    | emptyImage _ => exact Or.inr (by simp [emptyImageResult])
    | net dur r _ hn => exact anthropicNetReturn_shape dur r hn
  rcases h with hc | hc | hc
  · exact hoa hc
  · exact han hc
  · rcases hc with ⟨lookup, opts, r, hd⟩ | ⟨r, hc⟩ | ⟨r, hc⟩
    · exact Or.inr (dispatch_error_shape lookup opts r hd)
    · exact hoa hc
    · exact han hc

/-- C8: with an empty image payload either adapter fails fast with the
populated error result and no network call (the `net` alternative is
unreachable), and that fail-fast result is the only one whose
`duration_ms` is absent — every post-network return site, success or
failure, carries `some dur`. -/
theorem c8_empty_image_and_duration (image_base64 : List Char) (r : RecognitionResult) :
    ((CallOpenaiReturn [] r ∨ CallAnthropicReturn [] r) → r = emptyImageResult)
    ∧ (emptyImageResult.success = false ∧ emptyImageResult.error.isSome = true
        ∧ emptyImageResult.content = none ∧ emptyImageResult.duration_ms = none)
    ∧ (∀ dur, OpenaiNetReturn dur r → r.duration_ms = some dur)
    ∧ (∀ dur, AnthropicNetReturn dur r → r.duration_ms = some dur)
    ∧ (CallOpenaiReturn image_base64 r → r.duration_ms = none →
        image_base64 = [] ∧ r = emptyImageResult)
    ∧ (CallAnthropicReturn image_base64 r → r.duration_ms = none →
        image_base64 = [] ∧ r = emptyImageResult) := by
  have hdo : ∀ dur, OpenaiNetReturn dur r → r.duration_ms = some dur := by
    intro dur hn
    cases hn <;>
      simp [openaiStreamSuccess, openaiJsonSuccess, parseFailureResult, httpFailureResult,
        timeoutResult, connectFailResult, requestFailResult]
  have hda : ∀ dur, AnthropicNetReturn dur r → r.duration_ms = some dur := by
    intro dur hn
    cases hn <;>
      simp [anthropicStreamSuccess, anthropicJsonSuccess, parseFailureResult,
        httpFailureResult, timeoutResult, connectFailResult, requestFailResult]
  refine ⟨?_, by simp [emptyImageResult], hdo, hda, ?_, ?_⟩
  · rintro (hc | hc)
    · cases hc with
      | emptyImage _ => rfl
      | net dur r hne _ => exact absurd rfl hne
    · cases hc with
      | emptyImage _ => rfl
      | net dur r hne _ => exact absurd rfl hne
  · intro hc hd
    cases hc with
    | emptyImage he => exact ⟨he, rfl⟩
    | net dur r _ hn => rw [hdo dur hn] at hd; cases hd
  · intro hc hd
    cases hc with
    | emptyImage he => exact ⟨he, rfl⟩
    | net dur r _ hn => rw [hda dur hn] at hd; cases hd

/-! ## Claim C2: the recognition session controller
(commands/recognition.rs:19-129)

The session slot is `RecognitionState { abort_handle: Option<AbortHandle> }`
behind a mutex; the handle value itself carries no information the
claims need, so it is modelled as `Option Unit`.  The tokio join
outcome of the spawned unit of work is one of: normal completion with
the orchestrator result, cancellation (`e.is_cancelled()`), or an
internal task fault. -/

structure RecognitionState where
  abort_handle : Option Unit
deriving DecidableEq

inductive TaskOutcome where
  | completed (r : RecognitionResult)
  | cancelled
  | faulted (e : List Char)

/-- recognition.rs:117-129: `cancel_recognition` aborts the recorded
task and returns `Ok(())`, or reports the no-active-recognition error;
either way it leaves the slot unchanged (clearing is done by the
`recognize` command itself). -/
def cancel_recognition (st : RecognitionState) :
    Except (List Char) Unit × RecognitionState :=
  match st.abort_handle with
  | some _ => (.ok (), st)
  | none => (.error "No active recognition to cancel".data, st)

/-- recognition.rs:95-104: the synthesized result for a cancelled task. -/
def cancelledResult : RecognitionResult :=
  { success := false, content := none, error := some "识别已取消".data,
    tokens_used := none, duration_ms := none, processed_image := none }

/-- recognition.rs:86-114: what the `recognize` command does once the
spawned unit of work has finished — annotate the result with the
processed image when compression happened, synthesize the cancellation
result, or surface an internal fault as `Err`; then clear the abort
handle unconditionally before returning. -/
def finishRecognize (was_compressed : Bool) (processed_base64 : List Char)
    (outcome : TaskOutcome) (st : RecognitionState) :
    Except (List Char) RecognitionResult × RecognitionState :=
  let result : Except (List Char) RecognitionResult :=
    match outcome with
    | .completed r =>
      .ok (if was_compressed then { r with processed_image := some processed_base64 } else r)
    | .cancelled => .ok cancelledResult
    | .faulted e => .error ("识别任务失败: ".data ++ e)
  (result, { st with abort_handle := none })

/-- C2: `cancel_recognition` with no recorded handle reports the
no-active-recognition error (and with a recorded handle succeeds);
when the active unit of work ends cancelled, the pending `recognize`
call resolves to the fixed cancellation result — `success = false`,
error `识别已取消`, and no content, token usage or duration; and for
every outcome (normal, cancelled, fault) the recorded handle is cleared
before control returns, so the session is Idle again. -/
theorem c2_cancel_and_idle (st : RecognitionState) (wc : Bool)
    (pb : List Char) (outcome : TaskOutcome)
    (hidle : st.abort_handle = none) :
    (cancel_recognition st).1 = .error "No active recognition to cancel".data
    ∧ (∀ st2 : RecognitionState, st2.abort_handle = some () →
        (cancel_recognition st2).1 = .ok ())
    ∧ (∀ st2, (finishRecognize wc pb .cancelled st2).1 = .ok cancelledResult)
    ∧ (cancelledResult.success = false
        ∧ cancelledResult.error = some "识别已取消".data
        ∧ cancelledResult.content = none
        ∧ cancelledResult.tokens_used = none
        ∧ cancelledResult.duration_ms = none)
    ∧ (∀ st2, (finishRecognize wc pb outcome st2).2.abort_handle = none) := by
  refine ⟨?_, ?_, fun st2 => rfl, by simp [cancelledResult], fun st2 => rfl⟩
  · simp [cancel_recognition, hidle]
  · intro st2 h2
    simp [cancel_recognition, h2]

/-! ## The image preparer (services/image.rs)

The `base64` crate's STANDARD engine and the magic-byte sniffing are
translated directly; the `image` crate (pixel decode, Lanczos resize,
PNG/JPEG encoders) is an external collaborator and enters as an
explicit codec parameter, so control flow and the quality-reduction
search remain exactly the source's. -/

def b64Char (n : Nat) : Char :=
  if n < 26 then Char.ofNat (65 + n)
  else if n < 52 then Char.ofNat (97 + (n - 26))
  else if n < 62 then Char.ofNat (48 + (n - 52))
  else if n = 62 then '+'
  else '/'

def b64Index (c : Char) : Option Nat :=
  if 'A' ≤ c ∧ c ≤ 'Z' then some (c.toNat - 65)
  else if 'a' ≤ c ∧ c ≤ 'z' then some (c.toNat - 97 + 26)
  else if '0' ≤ c ∧ c ≤ '9' then some (c.toNat - 48 + 52)
  else if c = '+' then some 62
  else if c = '/' then some 63
  else none

def base64Encode : List Nat → List Char
  | [] => []
  | [a] => [b64Char (a / 4), b64Char ((a % 4) * 16), '=', '=']
  | [a, b] => [b64Char (a / 4), b64Char ((a % 4) * 16 + b / 16), b64Char ((b % 16) * 4), '=']
  | a :: b :: c :: rest =>
    b64Char (a / 4) :: b64Char ((a % 4) * 16 + b / 16) ::
      b64Char ((b % 16) * 4 + c / 64) :: b64Char (c % 64) :: base64Encode rest

/-- Strict canonical decode of the STANDARD engine: padded four-char
groups, `=` only at the end, zero trailing bits. -/
def base64Decode : List Char → Option (List Nat)
  | [] => some []
  | c1 :: c2 :: c3 :: c4 :: rest => do
    let n1 ← b64Index c1
    let n2 ← b64Index c2
    if c3 = '=' then
      if c4 = '=' ∧ rest = [] ∧ n2 % 16 = 0 then some [n1 * 4 + n2 / 16]
      else none
    else do
      let n3 ← b64Index c3
      if c4 = '=' then
        if rest = [] ∧ n3 % 4 = 0 then some [n1 * 4 + n2 / 16, (n2 % 16) * 16 + n3 / 4]
        else none
      else do
        let n4 ← b64Index c4
        let tail ← base64Decode rest
        some ((n1 * 4 + n2 / 16) :: ((n2 % 16) * 16 + n3 / 4) :: ((n3 % 4) * 64 + n4) :: tail)
  | _ => none

/-- image.rs:111-128. -/
def detect_mime_type (data : List Nat) : List Char :=
  if 8 ≤ data.length then
    if List.isPrefixOf [0x89, 0x50, 0x4E, 0x47] data then "image/png".data
    else if List.isPrefixOf [0xFF, 0xD8, 0xFF] data then "image/jpeg".data
    else if List.isPrefixOf [71, 73, 70, 56, 55, 97] data ∨
        List.isPrefixOf [71, 73, 70, 56, 57, 97] data then "image/gif".data
    else if List.isPrefixOf [82, 73, 70, 70] data ∧ 12 ≤ data.length ∧
        (data.drop 8).take 4 = [87, 69, 66, 80] then "image/webp".data
    else "image/jpeg".data
  else "image/jpeg".data

structure ProcessedImage where
  base64 : List Char
  mime_type : List Char
  original_size : Nat
  compressed_size : Option Nat
  was_compressed : Bool
deriving DecidableEq, Repr

instance {e a : Type} [DecidableEq e] [DecidableEq a] : DecidableEq (Except e a) := fun x y =>
  match x, y with
  | .error e1, .error e2 =>
    if h : e1 = e2 then isTrue (by rw [h]) else isFalse (fun hc => h (Except.error.inj hc))
  | .ok v1, .ok v2 =>
    if h : v1 = v2 then isTrue (by rw [h]) else isFalse (fun hc => h (Except.ok.inj hc))
  | .error e1, .ok v2 => isFalse (fun hc => Except.noConfusion hc)
  | .ok v1, .error e2 => isFalse (fun hc => Except.noConfusion hc)

/-- The `image` crate as used by image.rs: `decode` covers
`ImageReader::with_guessed_format()?.decode()?` (both error paths),
`resize` is the Lanczos3 fit-resize, and the two encoders return the
encoded bytes of the given image. -/
structure ImageCodec (Img : Type) where
  decode : List Nat → Except (List Char) Img
  width : Img → Nat
  height : Img → Nat
  resize : Img → Nat → Nat → Img
  pngEncode : Img → Except (List Char) (List Nat)
  jpegEncode : Nat → Img → Except (List Char) (List Nat)

/-- The JPEG quality-reduction loop of image.rs:94-108: encode at the
current quality; accept the buffer as soon as it fits the budget or the
quality has reached 60; otherwise retry at quality − 5. -/
def jpegLoop {Img : Type} (C : ImageCodec Img) (img : Img) (max_size_bytes : Nat) :
    Nat → Except (List Char) (List Nat × List Char)
  | quality =>
    match C.jpegEncode quality img with
    | .error e => .error ("Failed to encode JPEG: ".data ++ e)
    | .ok jpeg_buffer =>
      if h : jpeg_buffer.length ≤ max_size_bytes ∨ quality ≤ 60 then
        .ok (jpeg_buffer, "image/jpeg".data)
      else jpegLoop C img max_size_bytes (quality - 5)
termination_by q => q
decreasing_by omega

/-- How many `JpegEncoder` runs the loop performs from a given
starting quality. -/
def jpegAttempts {Img : Type} (C : ImageCodec Img) (img : Img) (max_size_bytes : Nat) :
    Nat → Nat
  | quality =>
    match C.jpegEncode quality img with
    | .error _ => 1
    | .ok jpeg_buffer =>
      if h : jpeg_buffer.length ≤ max_size_bytes ∨ quality ≤ 60 then 1
      else 1 + jpegAttempts C img max_size_bytes (quality - 5)
termination_by q => q
decreasing_by omega

/-- image.rs:82-109: PNG first; fall back to the quality loop starting
at 90. -/
def compress_image {Img : Type} (C : ImageCodec Img) (img : Img) (max_size_bytes : Nat) :
    Except (List Char) (List Nat × List Char) :=
  match C.pngEncode img with
  | .error e => .error ("Failed to encode PNG: ".data ++ e)
  | .ok png_buffer =>
    if png_buffer.length ≤ max_size_bytes then .ok (png_buffer, "image/png".data)
    else jpegLoop C img max_size_bytes 90

/-- image.rs:21-80 (`format!` error details are not modelled beyond the
fixed message heads). -/
def process_image_for_api {Img : Type} (C : ImageCodec Img) (input_base64 : List Char)
    (auto_compress : Bool) (max_size_bytes : Nat) : Except (List Char) ProcessedImage :=
  match base64Decode input_base64 with
  | none => .error "Invalid base64".data
  | some image_data =>
    let original_size := image_data.length
    if ¬ auto_compress then
      .ok { base64 := input_base64, mime_type := "image/jpeg".data,
            original_size := original_size, compressed_size := none,
            was_compressed := false }
    else
      match C.decode image_data with
      | .error e => .error ("Failed to decode image: ".data ++ e)
      | .ok img =>
        let width := C.width img
        let height := C.height img
        let max_dimension : Nat := 1920
        let needs_resize := width > max_dimension ∨ height > max_dimension
        let needs_compress := original_size > max_size_bytes
        if ¬ needs_resize ∧ ¬ needs_compress then
          .ok { base64 := input_base64, mime_type := detect_mime_type image_data,
                original_size := original_size, compressed_size := none,
                was_compressed := false }
        else
          let img2 := if needs_resize then C.resize img 1920 1920 else img
          match compress_image C img2 max_size_bytes with
          | .error e => .error e
          | .ok compressed =>
            .ok { base64 := base64Encode compressed.1, mime_type := compressed.2,
                  original_size := original_size,
                  compressed_size := some compressed.1.length, was_compressed := true }

/-! ## Claim C3: the bounded quality-reduction search -/

theorem jpegLoop_spec {Img : Type} (C : ImageCodec Img) (img : Img) (max_size_bytes : Nat) :
    ∀ q, 60 ≤ q → q % 5 = 0 →
      jpegAttempts C img max_size_bytes q ≤ (q - 60) / 5 + 1
      ∧ (∀ buf mime, jpegLoop C img max_size_bytes q = .ok (buf, mime) →
          mime = "image/jpeg".data ∧ ∃ q2, 60 ≤ q2 ∧ q2 ≤ q ∧
            C.jpegEncode q2 img = .ok buf ∧ (buf.length ≤ max_size_bytes ∨ q2 = 60)) := by
  intro q
  induction q using Nat.strong_induction_on with
  | _ q ih =>
    intro hq hq5
    rw [jpegAttempts, jpegLoop]
    rcases he : C.jpegEncode q img with e | buf0
    · exact ⟨by dsimp only; omega, fun buf mime h => Except.noConfusion h⟩
    · dsimp only
      by_cases hfit : buf0.length ≤ max_size_bytes ∨ q ≤ 60
      · rw [dif_pos hfit, dif_pos hfit]
        refine ⟨by omega, fun buf mime h => ?_⟩
        injection h with h
        injection h with h1 h2
        subst h1
        refine ⟨h2.symm, q, hq, Nat.le_refl q, he, ?_⟩
        rcases hfit with hfit | hfit
        · exact Or.inl hfit
        · exact Or.inr (Nat.le_antisymm hfit hq)
      · rw [dif_neg hfit, dif_neg hfit]
        have hq61 : 60 < q := by omega
        have hq65 : 65 ≤ q := by omega
        have hrec := ih (q - 5) (by omega) (by omega) (by omega)
        refine ⟨by omega, fun buf mime h => ?_⟩
        rcases hrec.2 buf mime h with ⟨hm, q2, h1, h2, h3, h4⟩
        exact ⟨hm, q2, h1, by omega, h3, h4⟩

/-- C3: whenever the lossless PNG re-encoding exceeds the byte budget,
`compress_image` runs the JPEG search from quality 90 down in steps of
5, performs at most 7 encode attempts, and any payload it returns was
produced at some quality between 60 and 90 and either fits the budget
or was produced at the floor quality 60 — the search never fails
merely because the budget is unreachable. -/
theorem c3_quality_floor {Img : Type} (C : ImageCodec Img) (img : Img)
    (max_size_bytes : Nat) (png : List Nat)
    (hpng : C.pngEncode img = .ok png) (hbig : max_size_bytes < png.length) :
    compress_image C img max_size_bytes = jpegLoop C img max_size_bytes 90
    ∧ jpegAttempts C img max_size_bytes 90 ≤ 7
    ∧ (∀ buf mime, jpegLoop C img max_size_bytes 90 = .ok (buf, mime) →
        mime = "image/jpeg".data ∧ ∃ q2, 60 ≤ q2 ∧ q2 ≤ 90 ∧
          C.jpegEncode q2 img = .ok buf ∧ (buf.length ≤ max_size_bytes ∨ q2 = 60)) := by
  have hspec := jpegLoop_spec C img max_size_bytes 90 (by omega) (by omega)
  refine ⟨?_, ?_, hspec.2⟩
  · simp [compress_image, hpng, Nat.not_le.mpr hbig]
  · have := hspec.1
    omega

/-! ## Claim C4: the `wasCompressed = false` branches -/

/-- C4, amended: when `process_image_for_api` returns with
`was_compressed = false` the payload is the input unchanged in both
branches, but the media type is sniffed from the decoded magic bytes
only in the within-limits branch; the compression-disabled branch
returns the fixed media type `image/jpeg` without sniffing
(image.rs:30-38). -/
theorem c4_uncompressed_branches {Img : Type} (C : ImageCodec Img) (input : List Char)
    (data : List Nat) (max_size_bytes : Nat) (hdec : base64Decode input = some data) :
    process_image_for_api C input false max_size_bytes =
      .ok { base64 := input, mime_type := "image/jpeg".data,
            original_size := data.length, compressed_size := none,
            was_compressed := false }
    ∧ (∀ img, C.decode data = .ok img → C.width img ≤ 1920 → C.height img ≤ 1920 →
        data.length ≤ max_size_bytes →
        process_image_for_api C input true max_size_bytes =
          .ok { base64 := input, mime_type := detect_mime_type data,
                original_size := data.length, compressed_size := none,
                was_compressed := false }) := by
  constructor
  · simp [process_image_for_api, hdec]
  · intro img himg hw hh hsz
    have hcond : ¬(C.width img > 1920 ∨ C.height img > 1920) ∧
        ¬(data.length > max_size_bytes) :=
      ⟨by omega, by omega⟩
    simp [process_image_for_api, hdec, himg, hcond.1, hcond.2]

def unitCodec : ImageCodec Unit :=
  { decode := fun _ => .ok ()
    width := fun _ => 1
    height := fun _ => 1
    resize := fun _ _ _ => ()
    pngEncode := fun _ => .ok []
    jpegEncode := fun _ _ => .ok [] }

/-- The eight-byte PNG signature. -/
def c4PngBytes : List Nat := [0x89, 0x50, 0x4E, 0x47, 0x0D, 0x0A, 0x1A, 0x0A]

/-- C4, counterexample to the claim as stated: with compression
disabled and a PNG input, the returned `ProcessedImage` has
`was_compressed = false` and the unchanged payload, but its media type
is the assumed constant `image/jpeg`, not the sniffed `image/png` that
`detect_mime_type` yields on the decoded bytes. -/
theorem c4_counterexample_disabled_branch_mime :
    process_image_for_api unitCodec (base64Encode c4PngBytes) false 1000000 =
      .ok { base64 := base64Encode c4PngBytes, mime_type := "image/jpeg".data,
            original_size := 8, compressed_size := none, was_compressed := false }
    ∧ detect_mime_type c4PngBytes = "image/png".data
    ∧ "image/jpeg".data ≠ ("image/png".data : List Char) := by
  refine ⟨by decide, by decide, by decide⟩

/-! ## Concrete witnesses -/

theorem c2_witness :
    (RecognitionState.mk none).abort_handle = none
    ∧ ((cancel_recognition ⟨none⟩).1 = .error "No active recognition to cancel".data
      ∧ (∀ st2 : RecognitionState, st2.abort_handle = some () →
          (cancel_recognition st2).1 = .ok ())
      ∧ (∀ st2, (finishRecognize false [] .cancelled st2).1 = .ok cancelledResult)
      ∧ (cancelledResult.success = false
          ∧ cancelledResult.error = some "识别已取消".data
          ∧ cancelledResult.content = none
          ∧ cancelledResult.tokens_used = none
          ∧ cancelledResult.duration_ms = none)
      ∧ (∀ st2, (finishRecognize false [] TaskOutcome.cancelled st2).2.abort_handle = none)) :=
  ⟨rfl, c2_cancel_and_idle ⟨none⟩ false [] .cancelled rfl⟩

def c3Codec : ImageCodec Unit :=
  { decode := fun _ => .ok ()
    width := fun _ => 1
    height := fun _ => 1
    resize := fun _ _ _ => ()
    pngEncode := fun _ => .ok (List.replicate 5 0)
    jpegEncode := fun q _ => .ok (List.replicate q 0) }

theorem c3_witness :
    c3Codec.pngEncode () = .ok (List.replicate 5 0)
    ∧ 2 < (List.replicate 5 (0 : Nat)).length
    ∧ (compress_image c3Codec () 2 = jpegLoop c3Codec () 2 90
      ∧ jpegAttempts c3Codec () 2 90 ≤ 7
      ∧ (∀ buf mime, jpegLoop c3Codec () 2 90 = .ok (buf, mime) →
          mime = "image/jpeg".data ∧ ∃ q2, 60 ≤ q2 ∧ q2 ≤ 90 ∧
            c3Codec.jpegEncode q2 () = .ok buf ∧ (buf.length ≤ 2 ∨ q2 = 60))) :=
  ⟨rfl, by decide, c3_quality_floor c3Codec () 2 (List.replicate 5 0) rfl (by decide)⟩

theorem c4_witness :
    base64Decode (base64Encode c4PngBytes) = some c4PngBytes
    ∧ (process_image_for_api unitCodec (base64Encode c4PngBytes) false 100 =
        .ok { base64 := base64Encode c4PngBytes, mime_type := "image/jpeg".data,
              original_size := c4PngBytes.length, compressed_size := none,
              was_compressed := false }
      ∧ (∀ img, unitCodec.decode c4PngBytes = .ok img → unitCodec.width img ≤ 1920 →
          unitCodec.height img ≤ 1920 → c4PngBytes.length ≤ 100 →
          process_image_for_api unitCodec (base64Encode c4PngBytes) true 100 =
            .ok { base64 := base64Encode c4PngBytes,
                  mime_type := detect_mime_type c4PngBytes,
                  original_size := c4PngBytes.length, compressed_size := none,
                  was_compressed := false })) :=
  ⟨by decide,
    c4_uncompressed_branches unitCodec (base64Encode c4PngBytes) c4PngBytes 100 (by decide)⟩

theorem c7_witness :
    (CallOpenaiReturn [] emptyImageResult ∨ CallAnthropicReturn [] emptyImageResult ∨
      LlmRecognizeReturn [] emptyImageResult)
    ∧ ((emptyImageResult.success = true ∧ emptyImageResult.content.isSome = true ∧
          emptyImageResult.error = none)
        ∨ (emptyImageResult.success = false ∧ emptyImageResult.error.isSome = true ∧
          emptyImageResult.content = none)) :=
  ⟨Or.inl (.emptyImage rfl),
    c7_result_exclusivity [] emptyImageResult (Or.inl (.emptyImage rfl))⟩

def c9Pairs : List (List Char × Json) := [("foo".data, Json.str "bar".data)]

theorem c9_witness :
    c9Options.custom_params = some (Json.obj c9Pairs)
    ∧ ("foo".data, Json.str "bar".data) ∈ c9Pairs
    ∧ (c9Pairs.map Prod.fst).Nodup
    ∧ ((openaiRequestBody c9Config "i".data "image/png".data "p".data c9Options
          true).lookupKey "foo".data = some (Json.str "bar".data)
      ∧ ∀ cp2, anthropicRequestBody c9Config "i".data "image/png".data "p".data
          { c9Options with custom_params := cp2 } true =
        anthropicRequestBody c9Config "i".data "image/png".data "p".data c9Options true) :=
  ⟨rfl, by simp [c9Pairs], by simp [c9Pairs],
    c9_custom_params_merge c9Config "i".data "image/png".data "p".data c9Options true
      c9Pairs "foo".data (Json.str "bar".data) rfl (by simp [c9Pairs]) (by simp [c9Pairs])⟩
